import Mathlib

/-!
Shallow embedding of `id3validator.py` (Track metadata validation core):
the validation-message vocabulary, the `TrackType` policy record, the
genre-tag parsing performed inside `Track.__validate_genre`, the rule
sequence of `Track.validate`, and the `Track` lazy-validation state
machine (`refresh`, the `errors`/`warnings`/`valid` properties).

Python strings are modelled as Lean `String`; a tag snapshot maps each
of the five referenced fields to `Option (List String)` (`none` = field
absent).  A Python expression that can raise an uncaught exception
(`int(...)` on a non-numeric string) is modelled by `Option`: `none`
means the call raised.
-/

set_option autoImplicit false

namespace Id3Validator

/-! ### Validation messages (class ValidationMessages) -/

def NO_METADATA : String := "No metadata found"

def MISSING_TITLE : String := "Missing title"

def MISSING_ARTIST : String := "Missing artist"

def MISSING_ALBUM : String := "Missing album"

def MISSING_YEAR : String := "Missing year"

def MISSING_CATEGORY : String := "Missing category"

def INVALID_CATEGORY : String := "Invalid category"

def INVALID_GENRE : String := "Invalid item in genre"

def CATEGORY_WRONG_POSITION : String := "Category in wrong position"

/-! ### Policy data (ALL_CATEGORIES, ALL_GENRE_ITEMS, TrackType) -/

def ALL_CATEGORIES : List Int :=
  [11, 12, 21, 22, 23, 24, 31, 32, 33, 34, 35, 36, 41, 42, 43, 44, 45, 51, 52, 53]

def ALL_GENRE_ITEMS : List String := ["cancon", "local"]

/-- `TrackType` dataclass: name, valid categories, valid genre items,
artist/album mandatory flags. -/
structure TrackType where
  name : String
  valid_categories : List Int := ALL_CATEGORIES
  valid_genre_items : List String := ALL_GENRE_ITEMS
  artist_mandatory : Bool := false
  album_mandatory : Bool := false
deriving DecidableEq, Repr

def DEFAULT_TYPE : TrackType := { name := "Default" }

def MUSIC_TYPE : TrackType :=
  ⟨"Music", [21, 22, 23, 24, 31, 32, 33, 34, 35, 36], ALL_GENRE_ITEMS, true, true⟩

def STATION_ID_TYPE : TrackType := ⟨"Station ID", [43], [], false, false⟩

/-- Tag snapshot handed to the core by `EasyID3`: each referenced field is
either absent or an ordered list of string values. -/
structure Metadata where
  title : Option (List String)
  artist : Option (List String)
  album : Option (List String)
  date : Option (List String)
  genre : Option (List String)
deriving DecidableEq, Repr

/-! ### Genre-tag parsing (`Track.__validate_genre`, lines 160-175) -/

/-- Does `s` begin with the characters `p`? (`item[0:3] == "cat"` is
`beginsWith "cat".data item.data`.) -/
def beginsWith : List Char → List Char → Bool
  | [], _ => true
  | _ :: _, [] => false
  | a :: as, b :: bs => a == b && beginsWith as bs

/-- Python `str.split(", ")` on the character list: cut at every
occurrence of the two-character separator comma-space. -/
def splitCS : List Char → List (List Char)
  | [] => [[]]
  | ',' :: ' ' :: rest => [] :: splitCS rest
  | c :: rest =>
    match splitCS rest with
    | [] => [[c]]
    | r :: rs => (c :: r) :: rs

def pySplitCS (s : String) : List String :=
  (splitCS s.data).map String.mk

/-- `genres = []; for i in metadata["genre"]: genres.extend(i.split(", "))`. -/
def flattenGenres (raws : List String) : List String :=
  raws.foldl (fun acc i => acc ++ pySplitCS i) []

def digitsVal (ds : List Char) : Nat :=
  ds.foldl (fun a c => a * 10 + (c.toNat - 48)) 0

def allDigits (ds : List Char) : Bool :=
  !ds.isEmpty && ds.all Char.isDigit

def pyStrip (s : List Char) : List Char :=
  ((s.dropWhile Char.isWhitespace).reverse.dropWhile Char.isWhitespace).reverse

/-- Python `int(s)` for string arguments, modelled on optionally signed,
whitespace-stripped decimal digit runs; `none` means `int` raised
`ValueError`.  (Digit-group underscores are not modelled; no input in
this development contains them.) -/
def pyInt (s : List Char) : Option Int :=
  match pyStrip s with
  | '+' :: ds => if allDigits ds then some (digitsVal ds : Int) else none
  | '-' :: ds => if allDigits ds then some (-(digitsVal ds : Int)) else none
  | ds => if allDigits ds then some (digitsVal ds : Int) else none

def catChars : List Char := ['c', 'a', 't']

/-- The category-scan loop of `__validate_genre`: find the first token
whose first three characters are `"cat"`, returning its index and the
`int` of its remaining characters.  Outer `none`: `int()` raised; inner
`none`: no category token present. -/
def findCat : List String → Option (Option (Nat × Int))
  | [] => some none
  | item :: rest =>
    if beginsWith catChars item.data then
      match pyInt (item.data.drop 3) with
      | none => none
      | some c => some (some (0, c))
    else
      (findCat rest).map (Option.map (fun p => (p.1 + 1, p.2)))

/-! ### Genre rules (`Track.__validate_genre`, lines 177-205) -/

/-- `i is not category_index` in the final loop of `__validate_genre`
(with `category_index` either `None` or a small interned int). -/
def isCatIndex : Option Nat → Nat → Bool
  | some k, i => k == i
  | none, _ => false

/-- The "verify other genre items are acceptable" loop: every token whose
index is not the category index and that is not a valid genre item
produces an `INVALID_GENRE` message carrying the token text. -/
def invalidItems (genres : List String) (catIdx : Option Nat) (ty : TrackType) :
    List String :=
  ((genres.enum.filter
      (fun p => !isCatIndex catIdx p.1 && !ty.valid_genre_items.contains p.2)).map
    (fun p => INVALID_GENRE ++ ": " ++ p.2))

/-- Outcome of `__validate_genre`: messages appended to the error and
warning lists, and the returned `genre_valid` flag. -/
structure GenreOut where
  errors : List String
  warnings : List String
  valid : Bool
deriving DecidableEq, Repr

/-- `Track.__validate_genre`.  `none` models the uncaught `ValueError`
raised by `int(item[3:])` on a malformed category suffix.  Note that the
`INVALID_CATEGORY` branch of the source appends an error but does not
clear `genre_valid`. -/
def validateGenre (md : Metadata) (ty : TrackType) : Option GenreOut :=
  match md.genre with
  | none => some ⟨[MISSING_CATEGORY], [], false⟩
  | some raws =>
    let genres := flattenGenres raws
    match findCat genres with
    | none => none
    | some none =>
      some ⟨MISSING_CATEGORY :: invalidItems genres none ty, [], false⟩
    | some (some (idx, c)) =>
      let posWarn := if idx == 0 then [] else [CATEGORY_WRONG_POSITION]
      let catErr := if ty.valid_categories.contains c then [] else [INVALID_CATEGORY]
      let inv := invalidItems genres (some idx) ty
      some ⟨catErr ++ inv, posWarn, inv.isEmpty⟩

/-! ### Field rules and verdict (`Track.validate`, lines 222-261) -/

def titleErrs (md : Metadata) : List String :=
  if md.title.isSome then [] else [MISSING_TITLE]

def albumErrs (md : Metadata) (ty : TrackType) : List String :=
  if md.album.isSome then [] else if ty.album_mandatory then [MISSING_ALBUM] else []

def albumWarns (md : Metadata) (ty : TrackType) : List String :=
  if md.album.isSome then [] else if ty.album_mandatory then [] else [MISSING_ALBUM]

def artistErrs (md : Metadata) (ty : TrackType) : List String :=
  if md.artist.isSome then [] else if ty.artist_mandatory then [MISSING_ARTIST] else []

def artistWarns (md : Metadata) (ty : TrackType) : List String :=
  if md.artist.isSome then [] else if ty.artist_mandatory then [] else [MISSING_ARTIST]

def dateWarns (md : Metadata) : List String :=
  if md.date.isSome then [] else [MISSING_YEAR]

/-- Result of one pass of `Track.validate`: the messages appended to the
error and warning lists, and the `valid_check` verdict that is stored
and returned. -/
structure VResult where
  errors : List String
  warnings : List String
  valid : Bool
deriving DecidableEq, Repr

/-- `Track.validate` as a function of the tag snapshot and the policy:
title/album/artist/date presence checks in source order, then the genre
rules; `none` models an uncaught exception from `__validate_genre`. -/
def validate (md : Metadata) (ty : TrackType) : Option VResult :=
  match validateGenre md ty with
  | none => none
  | some g =>
    some
      ⟨titleErrs md ++ albumErrs md ty ++ artistErrs md ty ++ g.errors,
        albumWarns md ty ++ artistWarns md ty ++ dateWarns md ++ g.warnings,
        (titleErrs md).isEmpty && (albumErrs md ty).isEmpty &&
          (artistErrs md ty).isEmpty && g.valid⟩

/-! ### Track lazy-validation state machine (class Track) -/

/-- Mutable state of a `Track` object: assigned policy, cached verdict
and flag, the error and warning lists, and the loaded tag snapshot
(`none` when `EasyID3` raised and `self.metadata` was never assigned). -/
structure TrackState where
  filename : String
  type : TrackType
  valid : Bool
  validated : Bool
  errors : List String
  warnings : List String
  metadata : Option Metadata
deriving DecidableEq, Repr

/-- `Track.refresh`: clear the cached validation, then reload metadata.
`readResult` is the collaborator's answer for the track's file: `some md`
is a successful `EasyID3` read, `none` is `ID3NoHeaderError`. -/
def refresh (t : TrackState) (readResult : Option Metadata) : TrackState :=
  let t0 := { t with valid := false, validated := false, errors := [], warnings := [] }
  match readResult with
  | some md => { t0 with metadata := some md }
  | none => { t0 with errors := [NO_METADATA], valid := false, validated := true }

/-- `Track.validate` as a state transition: appends this pass's messages
to the (uncleared) error and warning lists, stores the verdict, sets the
validated flag and returns the verdict.  `none` models an uncaught
exception. -/
def trackValidate (t : TrackState) : Option (Bool × TrackState) :=
  match t.metadata with
  | none => none
  | some md =>
    match validate md t.type with
    | none => none
    | some r =>
      some (r.valid,
        { t with
          errors := t.errors ++ r.errors,
          warnings := t.warnings ++ r.warnings,
          valid := r.valid,
          validated := true })

/-- The `errors` property: validate on first demand, then read the list. -/
def errorsAcc (t : TrackState) : Option (List String × TrackState) :=
  if t.validated then some (t.errors, t)
  else
    match trackValidate t with
    | none => none
    | some (_, t2) => some (t2.errors, t2)

/-- The `warnings` property. -/
def warningsAcc (t : TrackState) : Option (List String × TrackState) :=
  if t.validated then some (t.warnings, t)
  else
    match trackValidate t with
    | none => none
    | some (_, t2) => some (t2.warnings, t2)

/-- The `valid` property. -/
def validAcc (t : TrackState) : Option (Bool × TrackState) :=
  if t.validated then some (t.valid, t)
  else
    match trackValidate t with
    | none => none
    | some (_, t2) => some (t2.valid, t2)

/-- The `error_count` property: `len(self.errors)`. -/
def errorCountAcc (t : TrackState) : Option (Nat × TrackState) :=
  (errorsAcc t).map (fun p => (p.1.length, p.2))

/-- The `warning_count` property: `len(self.warnings)`. -/
def warningCountAcc (t : TrackState) : Option (Nat × TrackState) :=
  (warningsAcc t).map (fun p => (p.1.length, p.2))

/-! ### Concrete tag snapshots and track states used in the development -/

/-- All fields present, genre `"cat43, cancon"`. -/
def mdAll : Metadata :=
  ⟨some ["t"], some ["a"], some ["al"], some ["2020"], some ["cat43, cancon"]⟩

/-- All fields present, genre `"cat99"`. -/
def mdCat99 : Metadata :=
  ⟨some ["t"], some ["a"], some ["al"], some ["2020"], some ["cat99"]⟩

/-- All fields present, genre `"catxx"` (malformed category suffix). -/
def mdCatxx : Metadata :=
  ⟨some ["t"], some ["a"], some ["al"], some ["2020"], some ["catxx"]⟩

/-- Title absent, all other fields present, genre `"cat43, cancon"`. -/
def mdNoTitle : Metadata :=
  ⟨none, some ["a"], some ["al"], some ["2020"], some ["cat43, cancon"]⟩

/-- All fields present, genre `"cancon, cat43"` (category not first). -/
def mdWrongPos : Metadata :=
  ⟨some ["t"], some ["a"], some ["al"], some ["2020"], some ["cancon, cat43"]⟩

/-- Genre field entirely absent, all other fields present. -/
def mdNoGenre : Metadata :=
  ⟨some ["t"], some ["a"], some ["al"], some ["2020"], none⟩

/-- Every field absent. -/
def mdEmpty : Metadata := ⟨none, none, none, none, none⟩

/-- Freshly refreshed track holding `mdNoTitle`. -/
def trackNoTitle : TrackState :=
  ⟨"f.mp3", DEFAULT_TYPE, false, false, [], [], some mdNoTitle⟩

/-- Freshly refreshed track holding `mdAll`. -/
def trackAll : TrackState :=
  ⟨"f.mp3", DEFAULT_TYPE, false, false, [], [], some mdAll⟩

/-- `trackAll` after its first (clean) validation pass. -/
def trackAllAfter : TrackState :=
  ⟨"f.mp3", DEFAULT_TYPE, true, true, [], [], some mdAll⟩

/-- A track whose cached result was computed under the Music policy. -/
def trackCachedMusic : TrackState :=
  ⟨"f.mp3", MUSIC_TYPE, false, true, [MISSING_TITLE], [MISSING_YEAR], some mdAll⟩

/-- Does the genre field, if present, have its category scan succeed
(first `"cat"`-prefixed token absent, or carrying an int-parsable
suffix)?  Exactly the condition under which `__validate_genre` cannot
raise. -/
def genreParseOk (md : Metadata) : Bool :=
  match md.genre with
  | none => true
  | some raws => !(findCat (flattenGenres raws)).isNone

/-! ### Helper lemmas -/

theorem invGenre_head (x : String) :
    (INVALID_GENRE ++ ": " ++ x).data.head? = some 'I' := by
  cases x
  rfl

theorem invGenre_ne (x s : String) (hs : s.data.head? ≠ some 'I') :
    INVALID_GENRE ++ ": " ++ x ≠ s :=
  fun h => hs (h ▸ invGenre_head x)

theorem mem_titleErrs {md : Metadata} {msg : String} (h : msg ∈ titleErrs md) :
    msg = MISSING_TITLE := by
  unfold titleErrs at h
  split at h <;> simp_all

theorem mem_albumErrs {md : Metadata} {ty : TrackType} {msg : String}
    (h : msg ∈ albumErrs md ty) : msg = MISSING_ALBUM := by
  unfold albumErrs at h
  split at h <;> simp_all

theorem mem_artistErrs {md : Metadata} {ty : TrackType} {msg : String}
    (h : msg ∈ artistErrs md ty) : msg = MISSING_ARTIST := by
  unfold artistErrs at h
  split at h <;> simp_all

theorem mem_albumWarns {md : Metadata} {ty : TrackType} {msg : String}
    (h : msg ∈ albumWarns md ty) : msg = MISSING_ALBUM := by
  unfold albumWarns at h
  split at h <;> simp_all

theorem mem_artistWarns {md : Metadata} {ty : TrackType} {msg : String}
    (h : msg ∈ artistWarns md ty) : msg = MISSING_ARTIST := by
  unfold artistWarns at h
  split at h <;> simp_all

theorem mem_dateWarns {md : Metadata} {msg : String} (h : msg ∈ dateWarns md) :
    msg = MISSING_YEAR := by
  unfold dateWarns at h
  split at h <;> simp_all

theorem mem_invalidItems {genres : List String} {catIdx : Option Nat}
    {ty : TrackType} {msg : String} (h : msg ∈ invalidItems genres catIdx ty) :
    ∃ x, msg = INVALID_GENRE ++ ": " ++ x := by
  unfold invalidItems at h
  rcases List.mem_map.1 h with ⟨p, _, hp⟩
  exact ⟨p.2, hp.symm⟩

theorem mem_genre_errors {md : Metadata} {ty : TrackType} {g : GenreOut}
    (hg : validateGenre md ty = some g) {msg : String} (hm : msg ∈ g.errors) :
    msg = MISSING_CATEGORY ∨ msg = INVALID_CATEGORY ∨
      ∃ x, msg = INVALID_GENRE ++ ": " ++ x := by
  cases hge : md.genre with
  | none =>
    simp only [validateGenre, hge, Option.some.injEq] at hg
    rw [← hg] at hm
    simp at hm
    exact Or.inl hm
  | some raws =>
    simp only [validateGenre, hge] at hg
    cases hf : findCat (flattenGenres raws) with
    | none => rw [hf] at hg; cases hg
    | some o =>
      rw [hf] at hg
      cases o with
      | none =>
        simp only [Option.some.injEq] at hg
        rw [← hg] at hm
        rcases List.mem_cons.1 hm with h1 | h1
        · exact Or.inl h1
        · exact Or.inr (Or.inr (mem_invalidItems h1))
      | some p =>
        obtain ⟨idx, c⟩ := p
        simp only [Option.some.injEq] at hg
        rw [← hg] at hm
        simp only at hm
        rcases List.mem_append.1 hm with h1 | h1
        · split at h1
          · cases h1
          · simp at h1; exact Or.inr (Or.inl h1)
        · exact Or.inr (Or.inr (mem_invalidItems h1))

theorem mem_genre_warnings {md : Metadata} {ty : TrackType} {g : GenreOut}
    (hg : validateGenre md ty = some g) {msg : String} (hm : msg ∈ g.warnings) :
    msg = CATEGORY_WRONG_POSITION := by
  cases hge : md.genre with
  | none =>
    simp only [validateGenre, hge, Option.some.injEq] at hg
    rw [← hg] at hm
    simp at hm
  | some raws =>
    simp only [validateGenre, hge] at hg
    cases hf : findCat (flattenGenres raws) with
    | none => rw [hf] at hg; cases hg
    | some o =>
      rw [hf] at hg
      cases o with
      | none =>
        simp only [Option.some.injEq] at hg
        rw [← hg] at hm
        simp at hm
      | some p =>
        obtain ⟨idx, c⟩ := p
        simp only [Option.some.injEq] at hg
        rw [← hg] at hm
        simp only at hm
        split at hm
        · simp at hm
        · simp at hm; exact hm

theorem flattenGenres_foldl (raws : List String) :
    ∀ acc : List String,
      raws.foldl (fun a i => a ++ pySplitCS i) acc = acc ++ (raws.map pySplitCS).flatten := by
  induction raws with
  | nil => intro acc; simp
  | cons x xs ih => intro acc; simp [List.foldl, ih, List.append_assoc]

theorem findCat_cons_none {item : String} {rest : List String}
    (hb : beginsWith catChars item.data = true)
    (hp : pyInt (item.data.drop 3) = none) :
    findCat (item :: rest) = none := by
  simp [findCat, hb, hp]

theorem findCat_cons_some {item : String} {rest : List String} {c0 : Int}
    (hb : beginsWith catChars item.data = true)
    (hp : pyInt (item.data.drop 3) = some c0) :
    findCat (item :: rest) = some (some (0, c0)) := by
  simp [findCat, hb, hp]

theorem findCat_cons_skip {item : String} {rest : List String}
    (hb : beginsWith catChars item.data = false) :
    findCat (item :: rest) = (findCat rest).map (Option.map fun p => (p.1 + 1, p.2)) := by
  simp [findCat, hb]

theorem findCat_iff (genres : List String) :
    ∀ (i : Nat) (c : Int),
      findCat genres = some (some (i, c)) ↔
        ∃ item, genres.get? i = some item ∧
          beginsWith catChars item.data = true ∧
          pyInt (item.data.drop 3) = some c ∧
          (genres.take i).all (fun it => !beginsWith catChars it.data) = true := by
  induction genres with
  | nil => intro i c; simp [findCat]
  | cons item rest ih =>
    intro i c
    cases hb : beginsWith catChars item.data with
    | true =>
      cases hp : pyInt (item.data.drop 3) with
      | none =>
        rw [findCat_cons_none hb hp]
        constructor
        · intro h; cases h
        · rintro ⟨it, hit, hbw, hpi, htk⟩
          cases i with
          | zero =>
            simp only [List.get?] at hit
            cases hit
            rw [hp] at hpi
            cases hpi
          | succ k =>
            simp [List.take_succ_cons, hb] at htk
      | some c0 =>
        rw [findCat_cons_some hb hp]
        constructor
        · intro h
          simp only [Option.some.injEq, Prod.mk.injEq] at h
          obtain ⟨h1, h2⟩ := h
          refine ⟨item, ?_, hb, ?_, ?_⟩
          · rw [← h1]; rfl
          · rw [hp, h2]
          · rw [← h1]; rfl
        · rintro ⟨it, hit, hbw, hpi, htk⟩
          cases i with
          | zero =>
            simp only [List.get?] at hit
            cases hit
            rw [hp] at hpi
            simp only [Option.some.injEq] at hpi
            rw [hpi]
          | succ k =>
            simp [List.take_succ_cons, hb] at htk
    | false =>
      rw [findCat_cons_skip hb]
      cases i with
      | zero =>
        constructor
        · intro h
          rcases hf : findCat rest with - | o <;> rw [hf] at h
          · cases h
          · rcases o with - | ⟨k, c1⟩ <;> simp at h
        · rintro ⟨it, hit, hbw, hpi, htk⟩
          simp only [List.get?] at hit
          cases hit
          rw [hb] at hbw
          cases hbw
      | succ k =>
        have step :
            (findCat rest).map (Option.map fun p => (p.1 + 1, p.2)) =
                some (some (k + 1, c)) ↔
              findCat rest = some (some (k, c)) := by
          rcases hf : findCat rest with - | o
          · simp
          · rcases o with - | ⟨m, c1⟩
            · simp
            · simp
        rw [step, ih k c]
        constructor
        · rintro ⟨it, hit, hbw, hpi, htk⟩
          refine ⟨it, hit, hbw, hpi, ?_⟩
          simp [List.take_succ_cons, List.all_cons, hb, htk]
        · rintro ⟨it, hit, hbw, hpi, htk⟩
          refine ⟨it, hit, hbw, hpi, ?_⟩
          simp only [List.take_succ_cons, List.all_cons, Bool.and_eq_true] at htk
          exact htk.2

theorem validate_elim {md : Metadata} {ty : TrackType} {r : VResult}
    (h : validate md ty = some r) :
    ∃ g, validateGenre md ty = some g ∧
      r.errors = titleErrs md ++ albumErrs md ty ++ artistErrs md ty ++ g.errors ∧
      r.warnings = albumWarns md ty ++ artistWarns md ty ++ dateWarns md ++ g.warnings ∧
      r.valid = ((titleErrs md).isEmpty && (albumErrs md ty).isEmpty &&
        (artistErrs md ty).isEmpty && g.valid) := by
  unfold validate at h
  cases hg : validateGenre md ty with
  | none => rw [hg] at h; cases h
  | some g =>
    rw [hg] at h
    simp only [Option.some.injEq] at h
    exact ⟨g, rfl, by rw [← h], by rw [← h], by rw [← h]⟩

theorem validate_intro {md : Metadata} {ty : TrackType} {g : GenreOut}
    (hg : validateGenre md ty = some g) :
    validate md ty = some
      ⟨titleErrs md ++ albumErrs md ty ++ artistErrs md ty ++ g.errors,
        albumWarns md ty ++ artistWarns md ty ++ dateWarns md ++ g.warnings,
        (titleErrs md).isEmpty && (albumErrs md ty).isEmpty &&
          (artistErrs md ty).isEmpty && g.valid⟩ := by
  unfold validate
  rw [hg]

theorem mem_validate_errors {md : Metadata} {ty : TrackType} {r : VResult}
    (h : validate md ty = some r) {msg : String} (hm : msg ∈ r.errors) :
    msg = MISSING_TITLE ∨ msg = MISSING_ALBUM ∨ msg = MISSING_ARTIST ∨
      msg = MISSING_CATEGORY ∨ msg = INVALID_CATEGORY ∨
      ∃ x, msg = INVALID_GENRE ++ ": " ++ x := by
  obtain ⟨g, hg, he, -, -⟩ := validate_elim h
  rw [he] at hm
  rcases List.mem_append.1 hm with h1 | h1
  · rcases List.mem_append.1 h1 with h2 | h2
    · rcases List.mem_append.1 h2 with h3 | h3
      · exact Or.inl (mem_titleErrs h3)
      · exact Or.inr (Or.inl (mem_albumErrs h3))
    · exact Or.inr (Or.inr (Or.inl (mem_artistErrs h2)))
  · rcases mem_genre_errors hg h1 with h2 | h2 | h2
    · exact Or.inr (Or.inr (Or.inr (Or.inl h2)))
    · exact Or.inr (Or.inr (Or.inr (Or.inr (Or.inl h2))))
    · exact Or.inr (Or.inr (Or.inr (Or.inr (Or.inr h2))))

theorem mem_validate_warnings {md : Metadata} {ty : TrackType} {r : VResult}
    (h : validate md ty = some r) {msg : String} (hm : msg ∈ r.warnings) :
    msg = MISSING_ALBUM ∨ msg = MISSING_ARTIST ∨ msg = MISSING_YEAR ∨
      msg = CATEGORY_WRONG_POSITION := by
  obtain ⟨g, hg, -, hw, -⟩ := validate_elim h
  rw [hw] at hm
  rcases List.mem_append.1 hm with h1 | h1
  · rcases List.mem_append.1 h1 with h2 | h2
    · rcases List.mem_append.1 h2 with h3 | h3
      · exact Or.inl (mem_albumWarns h3)
      · exact Or.inr (Or.inl (mem_artistWarns h3))
    · exact Or.inr (Or.inr (Or.inl (mem_dateWarns h2)))
  · exact Or.inr (Or.inr (Or.inr (mem_genre_warnings hg h1)))

theorem trackValidate_elim {t : TrackState} {b : Bool} {t2 : TrackState}
    (h : trackValidate t = some (b, t2)) :
    ∃ md r, t.metadata = some md ∧ validate md t.type = some r ∧ b = r.valid ∧
      t2 = { t with
        errors := t.errors ++ r.errors,
        warnings := t.warnings ++ r.warnings,
        valid := r.valid,
        validated := true } := by
  cases hm : t.metadata with
  | none => simp [trackValidate, hm] at h
  | some md =>
    simp only [trackValidate, hm] at h
    cases hv : validate md t.type with
    | none => rw [hv] at h; cases h
    | some r =>
      rw [hv] at h
      simp only [Option.some.injEq, Prod.mk.injEq] at h
      exact ⟨md, r, rfl, hv, h.1.symm, h.2.symm⟩

theorem trackValidate_validated {t : TrackState} {b : Bool} {t2 : TrackState}
    (h : trackValidate t = some (b, t2)) : t2.validated = true := by
  obtain ⟨md, r, -, -, -, ht2⟩ := trackValidate_elim h
  rw [ht2]

theorem errorsAcc_validated {t : TrackState} (h : t.validated = true) :
    errorsAcc t = some (t.errors, t) := by
  rw [errorsAcc, if_pos h]

theorem warningsAcc_validated {t : TrackState} (h : t.validated = true) :
    warningsAcc t = some (t.warnings, t) := by
  rw [warningsAcc, if_pos h]

theorem validAcc_validated {t : TrackState} (h : t.validated = true) :
    validAcc t = some (t.valid, t) := by
  rw [validAcc, if_pos h]

theorem errorsAcc_not_validated {t : TrackState} {b : Bool} {t2 : TrackState}
    (hvd : t.validated = false) (h : trackValidate t = some (b, t2)) :
    errorsAcc t = some (t2.errors, t2) := by
  rw [errorsAcc, if_neg (by simp [hvd]), h]

theorem errorsAcc_elim {t : TrackState} {v : List String} {t2 : TrackState}
    (h : errorsAcc t = some (v, t2)) : t2.validated = true ∧ v = t2.errors := by
  by_cases ht : t.validated = true
  · rw [errorsAcc, if_pos ht] at h
    simp only [Option.some.injEq, Prod.mk.injEq] at h
    obtain ⟨h1, h2⟩ := h
    subst h2
    exact ⟨ht, h1.symm⟩
  · rw [errorsAcc, if_neg ht] at h
    cases htv : trackValidate t with
    | none => rw [htv] at h; cases h
    | some p =>
      obtain ⟨b, t3⟩ := p
      rw [htv] at h
      simp only [Option.some.injEq, Prod.mk.injEq] at h
      obtain ⟨h1, h2⟩ := h
      subst h2
      exact ⟨trackValidate_validated htv, h1.symm⟩

theorem warningsAcc_elim {t : TrackState} {v : List String} {t2 : TrackState}
    (h : warningsAcc t = some (v, t2)) : t2.validated = true ∧ v = t2.warnings := by
  by_cases ht : t.validated = true
  · rw [warningsAcc, if_pos ht] at h
    simp only [Option.some.injEq, Prod.mk.injEq] at h
    obtain ⟨h1, h2⟩ := h
    subst h2
    exact ⟨ht, h1.symm⟩
  · rw [warningsAcc, if_neg ht] at h
    cases htv : trackValidate t with
    | none => rw [htv] at h; cases h
    | some p =>
      obtain ⟨b, t3⟩ := p
      rw [htv] at h
      simp only [Option.some.injEq, Prod.mk.injEq] at h
      obtain ⟨h1, h2⟩ := h
      subst h2
      exact ⟨trackValidate_validated htv, h1.symm⟩

theorem validAcc_elim {t : TrackState} {v : Bool} {t2 : TrackState}
    (h : validAcc t = some (v, t2)) : t2.validated = true ∧ v = t2.valid := by
  by_cases ht : t.validated = true
  · rw [validAcc, if_pos ht] at h
    simp only [Option.some.injEq, Prod.mk.injEq] at h
    obtain ⟨h1, h2⟩ := h
    subst h2
    exact ⟨ht, h1.symm⟩
  · rw [validAcc, if_neg ht] at h
    cases htv : trackValidate t with
    | none => rw [htv] at h; cases h
    | some p =>
      obtain ⟨b, t3⟩ := p
      rw [htv] at h
      simp only [Option.some.injEq, Prod.mk.injEq] at h
      obtain ⟨h1, h2⟩ := h
      subst h2
      exact ⟨trackValidate_validated htv, h1.symm⟩

/-! ### Claim theorems -/

/-- C1: the claim that the verdict is true iff the error list is empty fails
on the code.  For the tag snapshot whose genre is `"cat99"`, with every other
field present, validated against the Station ID policy (whose valid
categories exclude 99), `validate` appends the `INVALID_CATEGORY` error yet
returns verdict `true`: the `INVALID_CATEGORY` branch of `__validate_genre`
never clears `genre_valid`, contradicting the docstring of `validate`
("True if no validation errors were encountered"). -/
theorem validate_cat99_error_with_true_verdict :
    STATION_ID_TYPE.valid_categories.contains 99 = false ∧
      validate mdCat99 STATION_ID_TYPE = some ⟨[INVALID_CATEGORY], [], true⟩ := by
  decide

/-- C2 counterexample: the claim that validation never crashes fails on the
code.  On the snapshot whose genre token is `"catxx"` (prefix `"cat"`,
non-numeric suffix) `validate` raises an uncaught `ValueError` from
`int(item[3:])`, modelled as returning `none`, instead of reporting
`MISSING_CATEGORY`. -/
theorem validate_catxx_raises : validate mdCatxx DEFAULT_TYPE = none := by
  decide

/-- C2 (amended): `validate` returns normally on every tag snapshot whose
genre field, when present, passes the category scan without a parse failure
(no `"cat"`-prefixed token before the first one whose suffix parses as an
integer); a malformed suffix on the scanned token instead raises. -/
theorem validate_total_of_genreParseOk (md : Metadata) (ty : TrackType)
    (h : genreParseOk md = true) : (validate md ty).isSome = true := by
  cases hg : validateGenre md ty with
  | some g => simp [validate, hg]
  | none =>
    exfalso
    cases hge : md.genre with
    | none => simp [validateGenre, hge] at hg
    | some raws =>
      simp only [genreParseOk, hge] at h
      simp only [validateGenre, hge] at hg
      cases hf : findCat (flattenGenres raws) with
      | none => rw [hf] at h; simp at h
      | some o =>
        rw [hf] at hg
        cases o with
        | none => simp at hg
        | some p => obtain ⟨i, c⟩ := p; simp at hg

/-- C2 witness: the amended totality claim applied to a concrete
well-formed snapshot. -/
theorem validate_total_of_genreParseOk_witness :
    genreParseOk mdAll = true ∧ (validate mdAll DEFAULT_TYPE).isSome = true :=
  ⟨by decide, validate_total_of_genreParseOk mdAll DEFAULT_TYPE (by decide)⟩

/-- C3: the claim that a second `validate()` call leaves the same lists
fails on the code.  Starting from a freshly refreshed track whose snapshot
lacks a title, the first `validate` pass leaves
`errors == ["Missing title"]`; the second pass appends to the uncleared
list, leaving `["Missing title", "Missing title"]`. -/
theorem trackValidate_twice_accumulates :
    (trackValidate trackNoTitle).map (fun p => (p.2.errors, p.2.warnings)) =
        some ([MISSING_TITLE], []) ∧
      ((trackValidate trackNoTitle).bind fun p => trackValidate p.2).map
          (fun p => (p.2.errors, p.2.warnings)) =
        some ([MISSING_TITLE, MISSING_TITLE], []) := by
  decide

/-- C4: when the tag reader signals "no tag header", `refresh` leaves the
track Validated and invalid with errors exactly `[NO_METADATA]` and no
warnings, and every accessor returns that cached result without running any
validation rule. -/
theorem refresh_no_header (t : TrackState) :
    (refresh t none).errors = [NO_METADATA] ∧
      (refresh t none).warnings = [] ∧
      (refresh t none).validated = true ∧
      (refresh t none).valid = false ∧
      errorsAcc (refresh t none) = some ([NO_METADATA], refresh t none) ∧
      warningsAcc (refresh t none) = some ([], refresh t none) ∧
      validAcc (refresh t none) = some (false, refresh t none) :=
  ⟨rfl, rfl, rfl, rfl, rfl, rfl, rfl⟩

/-- C4 witness: the refresh theorem at a concrete track. -/
theorem refresh_no_header_witness :
    (refresh trackAll none).errors = [NO_METADATA] ∧
      errorsAcc (refresh trackAll none) = some ([NO_METADATA], refresh trackAll none) :=
  ⟨(refresh_no_header trackAll).1, (refresh_no_header trackAll).2.2.2.2.1⟩

/-- C5: the genre parser flattens the raw values by splitting each on the
literal separator `", "` and concatenating the token lists in order, and the
category is the first flattened token beginning with `"cat"`, its index
recorded and its code the integer parse of the remaining characters
(`"cat43"` yields 43). -/
theorem genreParser_spec :
    (∀ raws : List String, flattenGenres raws = (raws.map pySplitCS).flatten) ∧
      (∀ (genres : List String) (i : Nat) (c : Int),
        findCat genres = some (some (i, c)) ↔
          ∃ item, genres.get? i = some item ∧
            beginsWith catChars item.data = true ∧
            pyInt (item.data.drop 3) = some c ∧
            (genres.take i).all (fun it => !beginsWith catChars it.data) = true) ∧
      flattenGenres ["cat43, cancon", "local"] = ["cat43", "cancon", "local"] ∧
      findCat ["cat43"] = some (some (0, 43)) :=
  ⟨fun raws => by simpa using flattenGenres_foldl raws [],
    findCat_iff, by decide, by decide⟩

/-- C5 witness: the parser characterization applied to a concrete token
list with the category in second position. -/
theorem genreParser_spec_witness :
    findCat ["cancon", "cat43"] = some (some (1, 43)) :=
  (genreParser_spec.2.1 ["cancon", "cat43"] 1 43).mpr
    ⟨"cat43", by decide, by decide, by decide, by decide⟩

/-- C6: the accessors are idempotent: whenever a read of `errors`,
`warnings`, `valid`, `error_count` or `warning_count` returns a value and a
post-state, reading the same accessor on the post-state returns the
identical value and the identical (cached, Validated) state, with no
recomputation or duplicate accumulation. -/
theorem accessors_idempotent (t : TrackState) :
    (∀ v t2, errorsAcc t = some (v, t2) → errorsAcc t2 = some (v, t2)) ∧
      (∀ v t2, warningsAcc t = some (v, t2) → warningsAcc t2 = some (v, t2)) ∧
      (∀ v t2, validAcc t = some (v, t2) → validAcc t2 = some (v, t2)) ∧
      (∀ n t2, errorCountAcc t = some (n, t2) → errorCountAcc t2 = some (n, t2)) ∧
      (∀ n t2, warningCountAcc t = some (n, t2) → warningCountAcc t2 = some (n, t2)) := by
  refine ⟨?_, ?_, ?_, ?_, ?_⟩
  · intro v t2 h
    obtain ⟨h1, h2⟩ := errorsAcc_elim h
    rw [errorsAcc_validated h1, h2]
  · intro v t2 h
    obtain ⟨h1, h2⟩ := warningsAcc_elim h
    rw [warningsAcc_validated h1, h2]
  · intro v t2 h
    obtain ⟨h1, h2⟩ := validAcc_elim h
    rw [validAcc_validated h1, h2]
  · intro n t2 h
    unfold errorCountAcc at h ⊢
    cases he : errorsAcc t with
    | none => rw [he] at h; cases h
    | some p =>
      obtain ⟨v, t3⟩ := p
      rw [he] at h
      simp only [Option.map_some', Option.some.injEq, Prod.mk.injEq] at h
      obtain ⟨h1, h2⟩ := h
      subst h2
      obtain ⟨h3, h4⟩ := errorsAcc_elim he
      rw [errorsAcc_validated h3]
      simp only [Option.map_some', Option.some.injEq, Prod.mk.injEq]
      exact ⟨by rw [← h4, h1], trivial⟩
  · intro n t2 h
    unfold warningCountAcc at h ⊢
    cases he : warningsAcc t with
    | none => rw [he] at h; cases h
    | some p =>
      obtain ⟨v, t3⟩ := p
      rw [he] at h
      simp only [Option.map_some', Option.some.injEq, Prod.mk.injEq] at h
      obtain ⟨h1, h2⟩ := h
      subst h2
      obtain ⟨h3, h4⟩ := warningsAcc_elim he
      rw [warningsAcc_validated h3]
      simp only [Option.map_some', Option.some.injEq, Prod.mk.injEq]
      exact ⟨by rw [← h4, h1], trivial⟩

/-- C6 witness: the idempotence theorem applied to a concrete track whose
first `errors` read validates. -/
theorem accessors_idempotent_witness :
    errorsAcc trackAllAfter = some ([], trackAllAfter) :=
  (accessors_idempotent trackAll).1 [] trackAllAfter (by decide)

/-- C7: a category token found at a flattened index other than 0 makes
evaluation append the `CATEGORY_WRONG_POSITION` warning and never that
message as an error; concretely, genre `"cancon, cat43"` under the default
policy yields verdict valid with exactly that warning and no errors. -/
theorem wrong_position_warning :
    (∀ (md : Metadata) (ty : TrackType) (raws : List String) (i : Nat) (c : Int),
        md.genre = some raws →
        findCat (flattenGenres raws) = some (some (i, c)) →
        i ≠ 0 →
        ∃ r, validate md ty = some r ∧ CATEGORY_WRONG_POSITION ∈ r.warnings ∧
          CATEGORY_WRONG_POSITION ∉ r.errors) ∧
      validate mdWrongPos DEFAULT_TYPE = some ⟨[], [CATEGORY_WRONG_POSITION], true⟩ := by
  constructor
  · intro md ty raws i c hge hf hi
    have hbe : (i == 0) = false := beq_eq_false_iff_ne.mpr hi
    have hg : validateGenre md ty = some
        ⟨(if ty.valid_categories.contains c then [] else [INVALID_CATEGORY]) ++
            invalidItems (flattenGenres raws) (some i) ty,
          [CATEGORY_WRONG_POSITION],
          (invalidItems (flattenGenres raws) (some i) ty).isEmpty⟩ := by
      simp only [validateGenre, hge, hf, hbe]
      simp
    refine ⟨_, validate_intro hg, ?_, ?_⟩
    · simp [List.mem_append]
    · intro hmem
      rcases mem_validate_errors (validate_intro hg) hmem with h1 | h1 | h1 | h1 | h1 | ⟨x, h1⟩
      · exact absurd h1 (by decide)
      · exact absurd h1 (by decide)
      · exact absurd h1 (by decide)
      · exact absurd h1 (by decide)
      · exact absurd h1 (by decide)
      · exact invGenre_ne x CATEGORY_WRONG_POSITION (by decide) h1.symm
  · decide

/-- C7 witness: the wrong-position theorem applied to the concrete snapshot
with genre `"cancon, cat43"`. -/
theorem wrong_position_warning_witness :
    ∃ r, validate mdWrongPos DEFAULT_TYPE = some r ∧
      CATEGORY_WRONG_POSITION ∈ r.warnings ∧ CATEGORY_WRONG_POSITION ∉ r.errors :=
  wrong_position_warning.1 mdWrongPos DEFAULT_TYPE ["cancon, cat43"] 1 43
    rfl (by decide) (by decide)

/-- C8: when the genre field is entirely absent, the genre pass contributes
exactly the `MISSING_CATEGORY` error (and nothing else: no `INVALID_GENRE`,
no `INVALID_CATEGORY`, no warnings), the verdict is false, and every error
of the whole pass is one of the four field/category-presence messages. -/
theorem missing_genre_field (md : Metadata) (ty : TrackType) (h : md.genre = none) :
    validateGenre md ty = some ⟨[MISSING_CATEGORY], [], false⟩ ∧
      ∃ r, validate md ty = some r ∧ r.valid = false ∧ MISSING_CATEGORY ∈ r.errors ∧
        ∀ msg ∈ r.errors,
          msg = MISSING_TITLE ∨ msg = MISSING_ALBUM ∨ msg = MISSING_ARTIST ∨
            msg = MISSING_CATEGORY := by
  have hg : validateGenre md ty = some ⟨[MISSING_CATEGORY], [], false⟩ := by
    simp [validateGenre, h]
  refine ⟨hg, _, validate_intro hg, ?_, ?_, ?_⟩
  · simp
  · simp [List.mem_append]
  · intro msg hmem
    rcases List.mem_append.1 hmem with h1 | h1
    · rcases List.mem_append.1 h1 with h2 | h2
      · rcases List.mem_append.1 h2 with h3 | h3
        · exact Or.inl (mem_titleErrs h3)
        · exact Or.inr (Or.inl (mem_albumErrs h3))
      · exact Or.inr (Or.inr (Or.inl (mem_artistErrs h2)))
    · simp only [List.mem_singleton] at h1
      exact Or.inr (Or.inr (Or.inr h1))

/-- C8 witness: the absent-genre theorem at a concrete snapshot with no
genre field. -/
theorem missing_genre_field_witness :
    validateGenre mdNoGenre DEFAULT_TYPE = some ⟨[MISSING_CATEGORY], [], false⟩ ∧
      ∃ r, validate mdNoGenre DEFAULT_TYPE = some r ∧ r.valid = false ∧
        MISSING_CATEGORY ∈ r.errors ∧
        ∀ msg ∈ r.errors,
          msg = MISSING_TITLE ∨ msg = MISSING_ALBUM ∨ msg = MISSING_ARTIST ∨
            msg = MISSING_CATEGORY :=
  missing_genre_field mdNoGenre DEFAULT_TYPE rfl

/-- C9: absent title always yields error `MISSING_TITLE`; absent album
yields error `MISSING_ALBUM` when `album_mandatory` else warning
`MISSING_ALBUM` (and then never the error); absent artist likewise with
`MISSING_ARTIST`; absent date always yields warning `MISSING_YEAR` and
never an error, regardless of policy. -/
theorem field_presence_rules (md : Metadata) (ty : TrackType) (r : VResult)
    (h : validate md ty = some r) :
    (md.title = none → MISSING_TITLE ∈ r.errors) ∧
      (md.album = none → ty.album_mandatory = true → MISSING_ALBUM ∈ r.errors) ∧
      (md.album = none → ty.album_mandatory = false →
        MISSING_ALBUM ∈ r.warnings ∧ MISSING_ALBUM ∉ r.errors) ∧
      (md.artist = none → ty.artist_mandatory = true → MISSING_ARTIST ∈ r.errors) ∧
      (md.artist = none → ty.artist_mandatory = false →
        MISSING_ARTIST ∈ r.warnings ∧ MISSING_ARTIST ∉ r.errors) ∧
      (md.date = none → MISSING_YEAR ∈ r.warnings ∧ MISSING_YEAR ∉ r.errors) := by
  obtain ⟨g, hg, he, hw, -⟩ := validate_elim h
  refine ⟨?_, ?_, ?_, ?_, ?_, ?_⟩
  · intro ht
    have h1 : titleErrs md = [MISSING_TITLE] := by simp [titleErrs, ht]
    rw [he, h1]
    simp
  · intro ha hm
    have h1 : albumErrs md ty = [MISSING_ALBUM] := by simp [albumErrs, ha, hm]
    rw [he, h1]
    simp
  · intro ha hm
    constructor
    · have h1 : albumWarns md ty = [MISSING_ALBUM] := by simp [albumWarns, ha, hm]
      rw [hw, h1]
      simp
    · intro hmem
      rw [he] at hmem
      rcases List.mem_append.1 hmem with h1 | h1
      · rcases List.mem_append.1 h1 with h2 | h2
        · rcases List.mem_append.1 h2 with h3 | h3
          · exact absurd (mem_titleErrs h3) (by decide)
          · have h4 : albumErrs md ty = [] := by simp [albumErrs, ha, hm]
            rw [h4] at h3
            cases h3
        · exact absurd (mem_artistErrs h2) (by decide)
      · rcases mem_genre_errors hg h1 with h2 | h2 | ⟨x, h2⟩
        · exact absurd h2 (by decide)
        · exact absurd h2 (by decide)
        · exact invGenre_ne x MISSING_ALBUM (by decide) h2.symm
  · intro ha hm
    have h1 : artistErrs md ty = [MISSING_ARTIST] := by simp [artistErrs, ha, hm]
    rw [he, h1]
    simp
  · intro ha hm
    constructor
    · have h1 : artistWarns md ty = [MISSING_ARTIST] := by simp [artistWarns, ha, hm]
      rw [hw, h1]
      simp
    · intro hmem
      rw [he] at hmem
      rcases List.mem_append.1 hmem with h1 | h1
      · rcases List.mem_append.1 h1 with h2 | h2
        · rcases List.mem_append.1 h2 with h3 | h3
          · exact absurd (mem_titleErrs h3) (by decide)
          · exact absurd (mem_albumErrs h3) (by decide)
        · have h4 : artistErrs md ty = [] := by simp [artistErrs, ha, hm]
          rw [h4] at h2
          cases h2
      · rcases mem_genre_errors hg h1 with h2 | h2 | ⟨x, h2⟩
        · exact absurd h2 (by decide)
        · exact absurd h2 (by decide)
        · exact invGenre_ne x MISSING_ARTIST (by decide) h2.symm
  · intro hd
    constructor
    · have h1 : dateWarns md = [MISSING_YEAR] := by simp [dateWarns, hd]
      rw [hw, h1]
      simp
    · intro hmem
      rcases mem_validate_errors h hmem with h1 | h1 | h1 | h1 | h1 | ⟨x, h1⟩
      · exact absurd h1 (by decide)
      · exact absurd h1 (by decide)
      · exact absurd h1 (by decide)
      · exact absurd h1 (by decide)
      · exact absurd h1 (by decide)
      · exact invGenre_ne x MISSING_YEAR (by decide) h1.symm

/-- C9 witness: the field-presence theorem applied to the snapshot with
every field absent under the Music policy (both mandatory flags true). -/
theorem field_presence_rules_witness :
    MISSING_TITLE ∈
        ([MISSING_TITLE, MISSING_ALBUM, MISSING_ARTIST, MISSING_CATEGORY] :
          List String) ∧
      MISSING_YEAR ∈ ([MISSING_YEAR] : List String) := by
  have h := field_presence_rules mdEmpty MUSIC_TYPE
    ⟨[MISSING_TITLE, MISSING_ALBUM, MISSING_ARTIST, MISSING_CATEGORY],
      [MISSING_YEAR], false⟩ (by decide)
  exact ⟨h.1 rfl, (h.2.2.2.2.2 rfl).1⟩

/-- C10: rebinding a track's type after the result is cached does not
invalidate the cache — every accessor still returns the previously cached
projection, unchanged by the new policy — and an explicit `refresh` with a
fresh snapshot re-evaluates under the newly bound policy. -/
theorem type_rebind_keeps_cache :
    (∀ (t : TrackState) (ty : TrackType), t.validated = true →
        errorsAcc { t with type := ty } = some (t.errors, { t with type := ty }) ∧
        warningsAcc { t with type := ty } =
          some (t.warnings, { t with type := ty }) ∧
        validAcc { t with type := ty } = some (t.valid, { t with type := ty }) ∧
        errorCountAcc { t with type := ty } =
          some (t.errors.length, { t with type := ty }) ∧
        warningCountAcc { t with type := ty } =
          some (t.warnings.length, { t with type := ty })) ∧
      (∀ (t : TrackState) (ty : TrackType) (md : Metadata) (r : VResult),
        validate md ty = some r →
        (refresh { t with type := ty } (some md)).validated = false ∧
        errorsAcc (refresh { t with type := ty } (some md)) =
          some (r.errors,
            { t with
              type := ty,
              valid := r.valid,
              validated := true,
              errors := r.errors,
              warnings := r.warnings,
              metadata := some md })) := by
  constructor
  · intro t ty ht
    have ht2 : ({ t with type := ty } : TrackState).validated = true := ht
    refine ⟨errorsAcc_validated ht2, warningsAcc_validated ht2,
      validAcc_validated ht2, ?_, ?_⟩
    · unfold errorCountAcc
      rw [errorsAcc_validated ht2]
      rfl
    · unfold warningCountAcc
      rw [warningsAcc_validated ht2]
      rfl
  · intro t ty md r h
    refine ⟨rfl, ?_⟩
    have htv : trackValidate (refresh { t with type := ty } (some md)) =
        some (r.valid,
          { t with
            type := ty,
            valid := r.valid,
            validated := true,
            errors := r.errors,
            warnings := r.warnings,
            metadata := some md }) := by
      simp only [refresh, trackValidate, h]
      simp
    exact errorsAcc_not_validated rfl htv

/-- C10 witness: a track whose result was cached under the Music policy
still reports that cached result after its type is rebound to the default
policy. -/
theorem type_rebind_keeps_cache_witness :
    errorsAcc { trackCachedMusic with type := DEFAULT_TYPE } =
      some ([MISSING_TITLE], { trackCachedMusic with type := DEFAULT_TYPE }) :=
  (type_rebind_keeps_cache.1 trackCachedMusic DEFAULT_TYPE rfl).1

end Id3Validator
